import Mathlib

/-
Verification of the gossip membership service (AxlAlm/gossip).

The development shallowly embeds the Rust sources `src/gossip.rs` and
`src/main.rs`. The membership table (a `HashMap<String, NodeHeartbeatData>`
behind a mutex) is modelled as an association list with unique keys reachable
through `tset`; hash-map iteration order is modelled by the list order, and
every use of the thread-local RNG (the Fisher-Yates `shuffle`, the forwarding
coin flip) is modelled by an explicit parameter: a shuffle function
constrained to produce permutations, and a real number `u` for the uniform
draw in `[0,1)`. Machine `u64` counters and timestamps are modelled as `Nat`
(no arithmetic in the embedded code can overflow a `u64` in any claim
considered here, and none of the claims concerns wrap-around), and the `f64`
computation in `should_forward` is modelled over the reals.
-/

set_option autoImplicit false

namespace Gossip

/-- The `Heartbeat` struct of `src/gossip.rs` (lines 65-72): the wire record
with fields `id`, `address`, `generation`, `version`, `timestamp`, in that
declaration order. -/
structure Heartbeat where
  id : String
  address : String
  generation : Nat
  version : Nat
  timestamp : Nat
  deriving DecidableEq, Repr

/-- The `NodeHeartbeatData` struct (lines 89-93): a table entry holding the
stored heartbeat and the local receive counter. -/
structure NodeHeartbeatData where
  heartbeat : Heartbeat
  received_count : Nat
  deriving DecidableEq, Repr

/-- The membership table `HashMap<String, NodeHeartbeatData>` modelled as an
association list; all access goes through `tlookup` and `tset`, which give it
unique-key map semantics. -/
abbrev Table : Type := List (String × NodeHeartbeatData)

/-- Lookup of a key in the table, modelling `HashMap::get`. -/
def tlookup : Table → String → Option NodeHeartbeatData
  | [], _ => none
  | (k, v) :: rest, key => if k = key then some v else tlookup rest key

/-- Store a value under a key, replacing any existing binding, modelling
`HashMap::insert`. -/
def tset : Table → String → NodeHeartbeatData → Table
  | [], k, v => [(k, v)]
  | (k', v') :: rest, k, v =>
    if k' = k then (k, v) :: rest else (k', v') :: tset rest k v

theorem tlookup_tset_self (t : Table) (k : String) (v : NodeHeartbeatData) :
    tlookup (tset t k v) k = some v := by
  induction t with
  | nil => simp [tset, tlookup]
  | cons p rest ih =>
    obtain ⟨k', v'⟩ := p
    by_cases hk : k' = k
    · simp [tset, hk, tlookup]
    · simp [tset, hk, tlookup, ih]

theorem tlookup_tset_other (t : Table) (k k' : String) (v : NodeHeartbeatData)
    (hne : k' ≠ k) : tlookup (tset t k v) k' = tlookup t k' := by
  have hne' : k ≠ k' := Ne.symm hne
  induction t with
  | nil => simp [tset, tlookup, hne']
  | cons p rest ih =>
    obtain ⟨k₀, v₀⟩ := p
    by_cases hk : k₀ = k
    · subst hk
      simp [tset, tlookup, hne']
    · simp [tset, hk, tlookup, ih]

/-- A predicate holding of every entry visible in the table. -/
def AllEntries (P : String → NodeHeartbeatData → Prop) (t : Table) : Prop :=
  ∀ k e, tlookup t k = some e → P k e

theorem allEntries_tset {P : String → NodeHeartbeatData → Prop} {t : Table}
    {k : String} {v : NodeHeartbeatData}
    (ht : AllEntries P t) (hv : P k v) : AllEntries P (tset t k v) := by
  intro k' e hl
  by_cases hk : k' = k
  · subst hk
    rw [tlookup_tset_self] at hl
    cases hl
    exact hv
  · rw [tlookup_tset_other t k k' v hk] at hl
    exact ht k' e hl

theorem allEntries_nil {P : String → NodeHeartbeatData → Prop} :
    AllEntries P [] := by
  intro k e hl
  simp [tlookup] at hl

/-- The value returned by `Storage::insert` as present in src/gossip.rs
(lines 122-168), where the text determines one. The function does not compile
as Rust, but its return values are written out: on the no-entry path (lines
125-128) it runs `locked_data.insert(k, v)` with the undefined names `k` and
`v` and then `return Ok(0)`; on the existing-entry path it falls through an
`if` on generation/version with an empty body (lines 131-133) to
`return Ok(())` (line 167), which is not a `u64` value at all — modelled as
`none`. No path mutates `received_count` or returns an incremented count. -/
def Storage.insertReturn (t : Table) (h : Heartbeat) : Option Nat :=
  match tlookup t h.id with
  | none => some 0
  | some _ => none

/-- The freshness test written in `Storage::insert` (src/gossip.rs lines
131-132), also in its commented-out scaffolding (lines 148-150):
`heartbeat.generation > current.heartbeat.generation || heartbeat.version >
current.heartbeat.version`, where `current` is the existing entry. The test
reads only `generation` and `version`, never `timestamp`. -/
def insertFreshTest (h : Heartbeat) (cur : NodeHeartbeatData) : Bool :=
  decide (cur.heartbeat.generation < h.generation) ||
    decide (cur.heartbeat.version < h.version)

/-- The table built by `Node::new` (src/gossip.rs lines 215-242): each seed
address is stored under the address itself as key, with a heartbeat made by
`Heartbeat { address, ..Default::default() }` (so `id = ""`, `generation =
0`, `version = 0`, `timestamp = now`), `received_count = 0`; then the node's
own entry is stored under its id with `Heartbeat { id, address,
..Default::default() }` and `received_count = 0`. The wall clock read by
`Heartbeat::default` (`SystemTime::now` seconds since the Unix epoch) is the
parameter `now`. -/
def nodeNewTable (id address : String) (seeds : List String) (now : Nat) :
    Table :=
  tset (seeds.foldl (fun t addr => tset t addr ⟨⟨"", addr, 0, 0, now⟩, 0⟩) [])
    id ⟨⟨id, address, 0, 0, now⟩, 0⟩

/-- The helper `select_random_n_strings` (src/gossip.rs lines 477-486): the
RNG shuffle of the candidate vector is modelled by the function argument
`sh`, constrained in the theorems to produce a permutation of its input. If
fewer than `n` candidates remain after shuffling the whole shuffled list is
returned, otherwise its first `n` elements. -/
def select_random_n_strings (a : List String) (sh : List String → List String)
    (n : Nat) : List String :=
  let s := sh a
  if s.length < n then s else s.take n

/-- The table's address list as collected by `select_n_random_addresses`
(src/gossip.rs lines 112-120): every entry's `heartbeat.address`, with
hash-map iteration order modelled by the list order. -/
def tableAddresses (t : Table) : List String :=
  t.map fun p => p.2.heartbeat.address

/-- `Storage::select_n_random_addresses` (src/gossip.rs lines 112-120):
collects every entry's `heartbeat.address` and passes the vector to
`select_random_n_strings`. The function takes no exclude set and performs no
filtering. -/
def Storage.select_n_random_addresses (t : Table)
    (sh : List String → List String) (n : Nat) : List String :=
  select_random_n_strings (tableAddresses t) sh n

/-- JSON string literal: a quoted string (serde_json escaping is not needed
for the identifiers and addresses considered here). -/
def quoteJson (s : String) : String := "\"" ++ s ++ "\""

/-- One JSON object member, `"key":value`. -/
def jsonField (k v : String) : String := quoteJson k ++ ":" ++ v

/-- Comma-join of the members of a JSON object. -/
def joinFields : List String → String
  | [] => ""
  | [f] => f
  | f :: rest => f ++ "," ++ joinFields rest

/-- A JSON object from its members. -/
def jsonObject (fields : List String) : String :=
  "\x7b" ++ joinFields fields ++ "\x7d"

/-- The serialization `serde_json::to_string(&heartbeat)` used by
`UdapChannel::send` (src/gossip.rs line 185): the derived `Serialize` on
`Heartbeat` emits a JSON object whose members are the five struct fields in
declaration order. -/
def encodeHeartbeat (h : Heartbeat) : String :=
  jsonObject
    [jsonField "id" (quoteJson h.id),
     jsonField "address" (quoteJson h.address),
     jsonField "generation" (toString h.generation),
     jsonField "version" (toString h.version),
     jsonField "timestamp" (toString h.timestamp)]

/-- The send loop of `UdapChannel::send` (src/gossip.rs lines 184-193): the
message is serialized once before the loop; `send_to` is modelled by the
fallible `transmit` argument; the `?` on `map_err(..)?` propagates the first
transmit error, ending the loop. -/
def sendLoop (transmit : String → String → Except String Unit) (msg : String) :
    List String → Except String Unit
  | [] => Except.ok ()
  | addr :: rest =>
    match transmit msg addr with
    | Except.error e => Except.error e
    | Except.ok _ => sendLoop transmit msg rest

/-- `UdapChannel::send heartbeat target_addresses`: serialize once, then run
the transmit loop. -/
def UdapChannel.send (transmit : String → String → Except String Unit)
    (h : Heartbeat) (addrs : List String) : Except String Unit :=
  sendLoop transmit (encodeHeartbeat h) addrs

/-- The addresses to which `UdapChannel::send` actually attempts a
transmission, in order: the loop stops right after the first failing
`send_to`. -/
def sendAttempts (transmit : String → String → Except String Unit)
    (msg : String) : List String → List String
  | [] => []
  | addr :: rest =>
    match transmit msg addr with
    | Except.error _ => [addr]
    | Except.ok _ => addr :: sendAttempts transmit msg rest

/-- The `base_probability` constant of `should_forward`
(src/gossip.rs line 489). -/
def base_probability : ℚ := 1

/-- The `decay_factor` constant hardcoded in `should_forward`
(src/gossip.rs line 490). It is a local literal `0.3`; the `DECAY_FACTOR`
configured in `src/main.rs` never reaches this function. -/
def decay_factor : ℚ := 3 / 10

/-- The forwarding coin flip `should_forward` (src/gossip.rs lines 488-494):
the uniform draw `rng.gen::<f64>()` in `[0,1)` is the parameter `u`, and the
decision is `u < base_probability * exp(-decay_factor * n)` where `n` is the
count returned by the merge. -/
def should_forward (u : ℝ) (n : Nat) : Prop :=
  u < (base_probability : ℝ) * Real.exp (-(decay_factor : ℝ) * n)

/-- C1, evaluated at the failing input: inserting a heartbeat into a table
with no entry for its id, the `Storage::insert` present in src returns 0 —
never 1 — and its store runs on the undefined names `k` and `v`, so the code
contradicts the claimed (and specified) create-with-count-1-return-1
behavior. -/
theorem insert_no_entry_returns_zero :
    Storage.insertReturn [] ⟨"a", "x:1", 0, 0, 5⟩ = some 0 ∧
    (some 0 : Option Nat) ≠ some 1 :=
  ⟨rfl, by decide⟩

/-- C2, evaluated at the failing input: merging a timestamp-7 heartbeat over
a stored timestamp-9 entry with count 3, the existing-entry path of the
`Storage::insert` present in src yields no count at all (it ends in
`return Ok(())`, not a `u64`), mutates nothing, and its scaffolding resets
`received_count` to 0 — it never increments to 4 nor returns 4 as the claim
requires. -/
theorem insert_existing_entry_returns_no_count :
    Storage.insertReturn [("a", ⟨⟨"a", "x:1", 0, 0, 9⟩, 3⟩)]
      ⟨"a", "x:1", 0, 0, 7⟩ = none := rfl

/-- C3, evaluated at the failing input: the freshness test of the
`Storage::insert` present in src compares only generation and version, never
timestamp: an incoming heartbeat with generation 1 and timestamp 0 passes the
test as fresh against a stored entry with generation 0 and timestamp 100 (so
the scaffolded merge would regress the stored timestamp from 100 to 0), and
the insert body itself yields no determinate result on that path — the code
cannot guarantee the claimed timestamp monotonicity. -/
theorem fresh_test_ignores_timestamp :
    insertFreshTest ⟨"a", "x:1", 1, 1, 0⟩ ⟨⟨"a", "x:1", 0, 0, 100⟩, 1⟩ =
      true ∧
    Storage.insertReturn [("a", ⟨⟨"a", "x:1", 0, 0, 100⟩, 1⟩)]
      ⟨"a", "x:1", 1, 1, 0⟩ = none :=
  ⟨rfl, rfl⟩

/-- C10: at node construction, both the node's own entry and every configured
seed entry carry a heartbeat whose timestamp equals the wall-clock `now` read
at construction (seconds since the Unix epoch), not 0. -/
theorem nodeNew_timestamps_are_now (id address : String) (seeds : List String)
    (now : Nat) (k : String) (e : NodeHeartbeatData)
    (hl : tlookup (nodeNewTable id address seeds now) k = some e) :
    e.heartbeat.timestamp = now := by
  have key : ∀ (ss : List String) (t : Table),
      AllEntries (fun _ e => e.heartbeat.timestamp = now) t →
      AllEntries (fun _ e => e.heartbeat.timestamp = now)
        (ss.foldl (fun t addr => tset t addr ⟨⟨"", addr, 0, 0, now⟩, 0⟩) t) := by
    intro ss
    induction ss with
    | nil => exact fun t ht => ht
    | cons s rest ih => exact fun t ht => ih _ (allEntries_tset ht rfl)
  have hall := allEntries_tset (P := fun _ e => e.heartbeat.timestamp = now)
    (k := id) (v := ⟨⟨id, address, 0, 0, now⟩, 0⟩)
    (key seeds [] allEntries_nil) rfl
  exact hall k e hl

/-- Witness for C10: in a node constructed at wall-clock 42 with one seed,
the seed entry's heartbeat timestamp is 42. -/
theorem nodeNew_timestamps_are_now_witness :
    (⟨⟨"", "s:1", 0, 0, 42⟩, 0⟩ : NodeHeartbeatData).heartbeat.timestamp =
      42 :=
  nodeNew_timestamps_are_now "a" "x:1" ["s:1"] 42 "s:1"
    ⟨⟨"", "s:1", 0, 0, 42⟩, 0⟩ (by decide)

/-- Counterexample to C6: in the table built by `Node::new` with id `n1`,
address `0.0.0.0:8000` and the single seed address `0.0.0.0:8001`, the entry
stored under the key `0.0.0.0:8001` has heartbeat id `""`, not the key: the
invariant `heartbeat.id == id` fails at construction for seed entries. -/
theorem seed_entry_breaks_id_key_invariant :
    ∃ e, tlookup (nodeNewTable "n1" "0.0.0.0:8000" ["0.0.0.0:8001"] 100)
        "0.0.0.0:8001" = some e ∧ e.heartbeat.id ≠ "0.0.0.0:8001" :=
  ⟨⟨⟨"", "0.0.0.0:8001", 0, 0, 100⟩, 0⟩, by decide, by decide⟩

/-- C6 as amended: in the state produced at node construction, every entry
stored under key `k` is either the self entry, whose key is the node id and
whose heartbeat id equals that key, or a seed entry, stored under the seed
address as key with an empty heartbeat id and with `heartbeat.address` equal
to the key; the invariant `heartbeat.id == id` therefore holds for the self
entry but fails for every seed entry. -/
theorem nodeNew_entry_key_shape (id address : String) (seeds : List String)
    (now : Nat) (k : String) (e : NodeHeartbeatData)
    (hl : tlookup (nodeNewTable id address seeds now) k = some e) :
    (k = id ∧ e.heartbeat.id = id ∧ e.heartbeat.address = address) ∨
    (k ∈ seeds ∧ e.heartbeat.id = "" ∧ e.heartbeat.address = k) := by
  unfold nodeNewTable at hl
  by_cases hk : k = id
  · subst hk
    rw [tlookup_tset_self] at hl
    cases hl
    exact Or.inl ⟨rfl, rfl, rfl⟩
  · rw [tlookup_tset_other _ _ _ _ hk] at hl
    have key : ∀ (ss : List String) (t : Table), (∀ s ∈ ss, s ∈ seeds) →
        AllEntries (fun k e => k ∈ seeds ∧ e.heartbeat.id = "" ∧
          e.heartbeat.address = k) t →
        AllEntries (fun k e => k ∈ seeds ∧ e.heartbeat.id = "" ∧
          e.heartbeat.address = k)
          (ss.foldl (fun t addr => tset t addr ⟨⟨"", addr, 0, 0, now⟩, 0⟩)
            t) := by
      intro ss
      induction ss with
      | nil => exact fun t _ ht => ht
      | cons s rest ih =>
        intro t hsub ht
        exact ih _ (fun x hx => hsub x (List.mem_cons_of_mem _ hx))
          (allEntries_tset ht ⟨hsub s (List.mem_cons_self _ _), rfl, rfl⟩)
    exact Or.inr (key seeds [] (fun s hs => hs) allEntries_nil k e hl)

/-- Witness for the amended C6: the seed entry of a concrete node satisfies
the seed disjunct. -/
theorem nodeNew_entry_key_shape_witness :
    ("s:1" = "n1" ∧
      (⟨⟨"", "s:1", 0, 0, 7⟩, 0⟩ : NodeHeartbeatData).heartbeat.id = "n1" ∧
      (⟨⟨"", "s:1", 0, 0, 7⟩, 0⟩ :
        NodeHeartbeatData).heartbeat.address = "a:1") ∨
    ("s:1" ∈ ["s:1"] ∧
      (⟨⟨"", "s:1", 0, 0, 7⟩, 0⟩ : NodeHeartbeatData).heartbeat.id = "" ∧
      (⟨⟨"", "s:1", 0, 0, 7⟩, 0⟩ :
        NodeHeartbeatData).heartbeat.address = "s:1") :=
  nodeNew_entry_key_shape "n1" "a:1" ["s:1"] 7 "s:1"
    ⟨⟨"", "s:1", 0, 0, 7⟩, 0⟩ (by decide)

theorem select_eq_take (a : List String) (sh : List String → List String)
    (n : Nat) : select_random_n_strings a sh n = (sh a).take n := by
  show (if (sh a).length < n then sh a else (sh a).take n) = (sh a).take n
  by_cases hlt : (sh a).length < n
  · rw [if_pos hlt, List.take_of_length_le (le_of_lt hlt)]
  · rw [if_neg hlt]

theorem tlookup_mem {t : Table} {k : String} {e : NodeHeartbeatData}
    (h : tlookup t k = some e) : (k, e) ∈ t := by
  induction t with
  | nil => simp [tlookup] at h
  | cons p rest ih =>
    obtain ⟨k', v'⟩ := p
    by_cases hk : k' = k
    · subst hk
      simp [tlookup] at h
      subst h
      exact List.mem_cons_self _ _
    · simp [tlookup, hk] at h
      exact List.mem_cons_of_mem _ (ih h)

/-- C7: the address selection over any candidate list `a` and bound `n`
returns exactly the first `min n (length a)` elements of the shuffled
candidates, so every destination list the Emitter or the Forwarder passes to
`send` has length at most the `heartbeat_spread` bound it selects with. -/
theorem select_random_n_strings_take (a : List String)
    (sh : List String → List String) (n : Nat) (hperm : (sh a).Perm a) :
    select_random_n_strings a sh n = (sh a).take n ∧
    (select_random_n_strings a sh n).length = min n a.length ∧
    (select_random_n_strings a sh n).length ≤ n := by
  have heq := select_eq_take a sh n
  refine ⟨heq, ?_, ?_⟩
  · rw [heq, List.length_take, hperm.length_eq]
  · rw [heq, List.length_take]
    exact min_le_left _ _

/-- Witness for C7: selecting 2 of 3 candidates with the identity shuffle
returns the first two and has length `min 2 3 ≤ 2`. -/
theorem select_random_n_strings_take_witness :
    select_random_n_strings ["p", "q", "r"] id 2 =
      (id ["p", "q", "r"]).take 2 ∧
    (select_random_n_strings ["p", "q", "r"] id 2).length =
      min 2 (["p", "q", "r"] : List String).length ∧
    (select_random_n_strings ["p", "q", "r"] id 2).length ≤ 2 :=
  select_random_n_strings_take ["p", "q", "r"] id 2 (List.Perm.refl _)

/-- Counterexample to C4: `select_n_random_addresses` takes no exclude set
and removes nothing. On the table of a freshly constructed node with id `a`
and address `0.0.0.0:8000` and no seeds, with the identity shuffle, selecting
one address returns the node's own address — which C4 says can never be a
destination. -/
theorem select_includes_own_address :
    Storage.select_n_random_addresses (nodeNewTable "a" "0.0.0.0:8000" [] 5)
      id 1 = ["0.0.0.0:8000"] := by decide

/-- C4 as amended: `select_n_random_addresses` takes only the bound `n` and
performs no exclusion: it returns the first `min n size` of the shuffled list
of every entry's `heartbeat.address`, so whenever `n` covers the table, every
stored address — the local node's own address and a forwarded heartbeat's
sender address included — appears in the destination list. -/
theorem select_n_random_addresses_no_exclusion (t : Table)
    (sh : List String → List String) (n : Nat)
    (hsh : ∀ l, (sh l).Perm l)
    (hn : (tableAddresses t).length ≤ n) (a : String)
    (ha : ∃ k e, tlookup t k = some e ∧ e.heartbeat.address = a) :
    a ∈ Storage.select_n_random_addresses t sh n := by
  obtain ⟨k, e, hl, hae⟩ := ha
  have hmem : a ∈ tableAddresses t := by
    subst hae
    exact List.mem_map_of_mem (fun p => p.2.heartbeat.address) (tlookup_mem hl)
  rw [Storage.select_n_random_addresses, select_eq_take,
    List.take_of_length_le (by rw [(hsh _).length_eq]; exact hn)]
  exact ((hsh (tableAddresses t)).mem_iff).mpr hmem

/-- Witness for the amended C4: the local node's own address appears in its
own selection. -/
theorem select_n_random_addresses_no_exclusion_witness :
    "0.0.0.0:9000" ∈ Storage.select_n_random_addresses
      (nodeNewTable "b" "0.0.0.0:9000" [] 3) id 1 :=
  select_n_random_addresses_no_exclusion
    (nodeNewTable "b" "0.0.0.0:9000" [] 3) id 1 (fun l => List.Perm.refl l)
    (by decide) "0.0.0.0:9000"
    ⟨"b", ⟨⟨"b", "0.0.0.0:9000", 0, 0, 3⟩, 0⟩, by decide, rfl⟩

theorem string_eq_of_data (a b : String) (h : a.data = b.data) : a = b := by
  cases a
  cases b
  simp_all

/-- Counterexample to C8: the heartbeat JSON is not the three-field object
the claim describes. For the concrete heartbeat with id `a`, address `h:1`,
generation 0, version 0 and timestamp 5, the serialized datagram differs from
the claimed `\x7b"id":"a","address":"h:1","timestamp":5\x7d` form: the derived
`Serialize` also emits the `generation` and `version` struct fields. -/
theorem heartbeat_json_not_three_fields :
    encodeHeartbeat ⟨"a", "h:1", 0, 0, 5⟩ ≠
      "\x7b\"id\":\"a\",\"address\":\"h:1\",\"timestamp\":5\x7d" := by decide

/-- C8 as amended: every datagram payload is one heartbeat encoded as a UTF-8
JSON object whose members are exactly `id` (string), `address` (string),
`generation`, `version` and `timestamp` (unsigned 64-bit numbers), in that
order and with no framing. -/
theorem encodeHeartbeat_fields (i a : String) (g v t : Nat) :
    encodeHeartbeat ⟨i, a, g, v, t⟩ =
      "\x7b\"id\":\"" ++ i ++ "\",\"address\":\"" ++ a ++
      "\",\"generation\":" ++ toString g ++ ",\"version\":" ++ toString v ++
      ",\"timestamp\":" ++ toString t ++ "\x7d" := by
  apply string_eq_of_data
  simp only [encodeHeartbeat, jsonObject, joinFields, jsonField, quoteJson,
    String.data_append]
  have c1 : ("\x7b" : String).data = ['\x7b'] := rfl
  have c2 : ("\"" : String).data = ['\"'] := rfl
  have c3 : ("id" : String).data = ['i', 'd'] := rfl
  have c4 : (":" : String).data = [':'] := rfl
  have c5 : ("," : String).data = [','] := rfl
  have c6 : ("address" : String).data =
    ['a', 'd', 'd', 'r', 'e', 's', 's'] := rfl
  have c7 : ("generation" : String).data =
    ['g', 'e', 'n', 'e', 'r', 'a', 't', 'i', 'o', 'n'] := rfl
  have c8 : ("version" : String).data =
    ['v', 'e', 'r', 's', 'i', 'o', 'n'] := rfl
  have c9 : ("timestamp" : String).data =
    ['t', 'i', 'm', 'e', 's', 't', 'a', 'm', 'p'] := rfl
  have c10 : ("\x7d" : String).data = ['\x7d'] := rfl
  have d1 : ("\x7b\"id\":\"" : String).data =
    ['\x7b', '\"', 'i', 'd', '\"', ':', '\"'] := rfl
  have d2 : ("\",\"address\":\"" : String).data =
    ['\"', ',', '\"', 'a', 'd', 'd', 'r', 'e', 's', 's', '\"', ':', '\"'] :=
    rfl
  have d3 : ("\",\"generation\":" : String).data =
    ['\"', ',', '\"', 'g', 'e', 'n', 'e', 'r', 'a', 't', 'i', 'o', 'n', '\"',
      ':'] := rfl
  have d4 : (",\"version\":" : String).data =
    [',', '\"', 'v', 'e', 'r', 's', 'i', 'o', 'n', '\"', ':'] := rfl
  have d5 : (",\"timestamp\":" : String).data =
    [',', '\"', 't', 'i', 'm', 'e', 's', 't', 'a', 'm', 'p', '\"', ':'] := rfl
  simp [c1, c2, c3, c4, c5, c6, c7, c8, c9, c10, d1, d2, d3, d4, d5]

/-- Counterexample to C9: with a transmit that fails on every address, the
batch `["p:1", "q:2"]` attempts only the first address — the second is never
tried — and the send returns the error, so a per-address failure does abort
the remainder of the batch. -/
theorem send_aborts_batch_on_failure :
    UdapChannel.send (fun _ _ => Except.error "io") ⟨"a", "x:1", 0, 0, 1⟩
      ["p:1", "q:2"] = Except.error "io" ∧
    sendAttempts (fun _ _ => Except.error "io")
      (encodeHeartbeat ⟨"a", "x:1", 0, 0, 1⟩) ["p:1", "q:2"] = ["p:1"] :=
  ⟨rfl, rfl⟩

/-- C9 as amended: `send` serializes the heartbeat exactly once (every
attempted transmit carries the same serialized message) and transmits in
order, but the first per-address transmit failure aborts the remainder of the
batch: the addresses after the failing one are never attempted, and the error
is returned to the caller. -/
theorem send_stops_at_first_error
    (transmit : String → String → Except String Unit) (h : Heartbeat)
    (pre : List String) (a : String) (rest : List String) (e : String)
    (hpre : ∀ b ∈ pre, transmit (encodeHeartbeat h) b = Except.ok ())
    (he : transmit (encodeHeartbeat h) a = Except.error e) :
    UdapChannel.send transmit h (pre ++ a :: rest) = Except.error e ∧
    sendAttempts transmit (encodeHeartbeat h) (pre ++ a :: rest) =
      pre ++ [a] := by
  induction pre with
  | nil =>
    constructor
    · show sendLoop transmit (encodeHeartbeat h) (a :: rest) = Except.error e
      simp [sendLoop, he]
    · simp [sendAttempts, he]
  | cons b pre ih =>
    have hb := hpre b (List.mem_cons_self _ _)
    have ih' := ih fun x hx => hpre x (List.mem_cons_of_mem _ hx)
    constructor
    · show sendLoop transmit (encodeHeartbeat h) (b :: (pre ++ a :: rest)) =
        Except.error e
      simp only [sendLoop, hb]
      exact ih'.1
    · show sendAttempts transmit (encodeHeartbeat h)
        (b :: (pre ++ a :: rest)) = b :: (pre ++ [a])
      simp only [sendAttempts, hb]
      exact congrArg (b :: ·) ih'.2

/-- Witness for the amended C9: a transmit that fails exactly on `q:2` makes
the three-address batch return the error and attempt only the first two
addresses. -/
theorem send_stops_at_first_error_witness :
    UdapChannel.send
      (fun _ addr => if addr = "q:2" then Except.error "io" else Except.ok ())
      ⟨"a", "x:1", 0, 0, 1⟩ (["p:1"] ++ "q:2" :: ["r:3"]) =
      Except.error "io" ∧
    sendAttempts
      (fun _ addr => if addr = "q:2" then Except.error "io" else Except.ok ())
      (encodeHeartbeat ⟨"a", "x:1", 0, 0, 1⟩) (["p:1"] ++ "q:2" :: ["r:3"]) =
      ["p:1"] ++ ["q:2"] :=
  send_stops_at_first_error
    (fun _ addr => if addr = "q:2" then Except.error "io" else Except.ok ())
    ⟨"a", "x:1", 0, 0, 1⟩ ["p:1"] "q:2" ["r:3"] "io"
    (by
      intro b hb
      simp only [List.mem_singleton] at hb
      subst hb
      rfl)
    rfl

/-- C5, evaluated at the failing input: the forwarding coin flip uses the
constant 0.3 hardcoded in `should_forward`, not the node's configured decay
factor (`src/main.rs` passes `DECAY_FACTOR` to `Node::new`, which does not
accept it and cannot reach `should_forward`). At count 1 with uniform draw
`u = 0.999` the code does not forward, whereas the claimed rule with a
configured decay factor of 0 forwards for every draw below
`exp(-0 * count) = 1`, in particular for `0.999`. -/
theorem should_forward_ignores_configured_decay :
    ¬ should_forward (999 / 1000 : ℝ) 1 ∧
    (999 / 1000 : ℝ) < Real.exp (-(0 : ℝ) * (1 : Nat)) := by
  constructor
  · intro hsf
    unfold should_forward at hsf
    have hcast : ((decay_factor : ℝ)) = 3 / 10 := by
      norm_num [decay_factor]
    have hbase : ((base_probability : ℝ)) = 1 := by
      norm_num [base_probability]
    rw [hcast, hbase, Nat.cast_one, mul_one, one_mul] at hsf
    have h13 : (13 / 10 : ℝ) ≤ Real.exp (3 / 10) := by
      have h := Real.add_one_le_exp (3 / 10 : ℝ)
      linarith
    have hinv : Real.exp (-(3 / 10) : ℝ) ≤ 10 / 13 := by
      rw [Real.exp_neg]
      have hmono := inv_anti₀ (by norm_num : (0 : ℝ) < 13 / 10) h13
      calc (Real.exp (3 / 10))⁻¹ ≤ (13 / 10 : ℝ)⁻¹ := hmono
        _ = 10 / 13 := by norm_num
    linarith
  · simp [Real.exp_zero]
    norm_num

end Gossip
